import Mathlib

/-
Shallow embedding of the software rasterizer's core (color arithmetic,
frame buffer with z-buffer, vertex transform stage, shading functions,
primitive assembly, overlay drawing).

Modelling conventions:
* `u8` channel values are natural numbers; the representation invariant
  "fits in a byte" is the predicate `Color.InRange` and appears as a
  hypothesis where a claim needs it.
* `f32` values are rationals (`ℚ`).  The depth buffer additionally needs
  the value `f32::INFINITY`, so depths live in the type `Depth`, which is
  `ℚ` extended with the two infinities; `Depth.lt` mirrors the IEEE `<`
  on these (non-NaN) values.
* Rust's `as u8` cast from a float is saturating: it truncates toward
  zero and clamps to `[0, 255]` (`f32_to_u8` below).  Rust's `f32::round`
  rounds half away from zero (`rust_round` below).
* `Vec<T>` buffers are `List`s indexed by `y * width + x` exactly as in
  the source; an out-of-range read is given the default `Depth.inf`
  (irrelevant under the well-formedness hypotheses used by the theorems).
-/

/-- RGB color with three 8-bit channels (`color.rs`, `struct Color`).
Channels are modelled as `ℕ`; `Color.InRange` is the u8 range invariant. -/
structure Color where
  r : ℕ
  g : ℕ
  b : ℕ
deriving DecidableEq

/-- The u8 representation invariant: every channel fits in a byte. -/
def Color.InRange (c : Color) : Prop := c.r ≤ 255 ∧ c.g ≤ 255 ∧ c.b ≤ 255

instance (c : Color) : Decidable c.InRange := by
  unfold Color.InRange; infer_instance

/-- Constructor `Color::new` (`color.rs` line 13). -/
def Color.new (r g b : ℕ) : Color := ⟨r, g, b⟩

/-- Helper `Color::clamp` (`color.rs` line 17): clamp an `i32` to `[0,255]`
and cast to u8. -/
def Color.clamp (value : ℤ) : ℕ :=
  if value < 0 then 0 else if value > 255 then 255 else value.toNat

/-- Constructor `Color::black` (`color.rs` line 27). -/
def Color.black : Color := Color.new 0 0 0

/-- Constructor `Color::from_hex` (`color.rs` line 31): unpack a 24-bit
integer, high byte = R. -/
def Color.from_hex (hex : ℕ) : Color :=
  { r := (hex >>> 16) &&& 0xFF
    g := (hex >>> 8) &&& 0xFF
    b := hex &&& 0xFF }

/-- Conversion `Color::to_hex` (`color.rs` line 39): pack the channels
into a 24-bit integer, high byte = R. -/
def Color.to_hex (c : Color) : ℕ :=
  (c.r <<< 16) ||| (c.g <<< 8) ||| c.b

/-- Rust's saturating `as u8` cast applied to a (rounded or truncated)
float modelled as an integer: clamp to `[0,255]`. -/
def satU8 (n : ℤ) : ℕ := (min 255 (max 0 n)).toNat

/-- Rust's `as u8` cast from an `f32`: truncate toward zero, saturating
at the ends of the u8 range.  The argument is the exact rational value. -/
def f32_to_u8 (q : ℚ) : ℕ := satU8 ⌊max 0 q⌋

/-- Rust's `f32::round`: round half away from zero. -/
def rust_round (q : ℚ) : ℤ :=
  if 0 ≤ q then ⌊q + 1/2⌋ else -⌊-q + 1/2⌋

/-- Method `Color::lerp` (`color.rs` line 53): linear interpolation with
`t` clamped to `[0,1]`, each channel `round(a + (b - a) * t)` cast to u8. -/
def Color.lerp (c other : Color) (t : ℚ) : Color :=
  let t := min (max t 0) 1
  { r := satU8 (rust_round ((c.r : ℚ) + ((other.r : ℚ) - (c.r : ℚ)) * t))
    g := satU8 (rust_round ((c.g : ℚ) + ((other.g : ℚ) - (c.g : ℚ)) * t))
    b := satU8 (rust_round ((c.b : ℚ) + ((other.b : ℚ) - (c.b : ℚ)) * t)) }

/-- Method `Color::is_black` (`color.rs` line 62). -/
def Color.is_black (c : Color) : Bool := c.r == 0 && c.g == 0 && c.b == 0

/-- Blend mode `Color::blend_normal` (`color.rs` line 67): the blend color
wins unless it is pure black, in which case the base wins. -/
def Color.blend_normal (c blend : Color) : Color :=
  if blend.is_black then c else blend

/-- Blend mode `Color::blend_multiply` (`color.rs` line 75): per channel
`(a * b) / 255` (the f32 quotient is truncated by the `as u8` cast; on
byte inputs this equals natural floor division). -/
def Color.blend_multiply (c blend : Color) : Color :=
  Color.new (c.r * blend.r / 255) (c.g * blend.g / 255) (c.b * blend.b / 255)

/-- Blend mode `Color::blend_add` (`color.rs` line 83): per channel
saturating sum `min (a + b) 255` computed in u16. -/
def Color.blend_add (c blend : Color) : Color :=
  Color.new (min (c.r + blend.r) 255) (min (c.g + blend.g) 255)
    (min (c.b + blend.b) 255)

/-- Blend mode `Color::blend_subtract` (`color.rs` line 91): per channel
`(a - b).max(0).min(255)` computed in i16. -/
def Color.blend_subtract (c blend : Color) : Color :=
  Color.new (min (max ((c.r : ℤ) - (blend.r : ℤ)) 0) 255).toNat
    (min (max ((c.g : ℤ) - (blend.g : ℤ)) 0) 255).toNat
    (min (max ((c.b : ℤ) - (blend.b : ℤ)) 0) 255).toNat

/-- Blend mode `Color::blend_screen` (`color.rs` line 99): per channel
`255 - (255 - a) * (255 - b) / 255` computed in u16. -/
def Color.blend_screen (c blend : Color) : Color :=
  Color.new (255 - (255 - c.r) * (255 - blend.r) / 255)
    (255 - (255 - c.g) * (255 - blend.g) / 255)
    (255 - (255 - c.b) * (255 - blend.b) / 255)

/-- Operator `impl Add for Color` (`color.rs` line 114): per channel
`u8::saturating_add`. -/
def Color.add (c other : Color) : Color :=
  { r := min (c.r + other.r) 255
    g := min (c.g + other.g) 255
    b := min (c.b + other.b) 255 }

/-- Operator `impl Mul<f32> for Color` (`color.rs` line 126): per channel
`(a * scalar).clamp(0.0, 255.0) as u8`. -/
def Color.mulScalar (c : Color) (scalar : ℚ) : Color :=
  { r := f32_to_u8 (min (max ((c.r : ℚ) * scalar) 0) 255)
    g := f32_to_u8 (min (max ((c.g : ℚ) * scalar) 0) 255)
    b := f32_to_u8 (min (max ((c.b : ℚ) * scalar) 0) 255) }

/-- Depth values stored in the z-buffer: the non-NaN `f32` values that the
pipeline actually compares, i.e. finite reals (as `ℚ`) plus `±∞`
(`f32::INFINITY` initializes the buffer). -/
inductive Depth where
  | neg_inf : Depth
  | fin (q : ℚ) : Depth
  | inf : Depth
deriving DecidableEq

/-- IEEE `<` on non-NaN `f32` values, as used by the depth test. -/
def Depth.lt : Depth → Depth → Bool
  | .fin a, .fin b => a < b
  | .fin _, .inf => true
  | .neg_inf, .fin _ => true
  | .neg_inf, .inf => true
  | _, _ => false

/-- Frame buffer (`framebuffer.rs`, `struct Framebuffer`): a color buffer
and a parallel z-buffer, both indexed by `y * width + x`. -/
structure Framebuffer where
  width : ℕ
  height : ℕ
  buffer : List Color
  zbuffer : List Depth
  background_color : Color
  current_color : Color

/-- Buffer lengths match the `width * height` allocation of
`Framebuffer::new` (maintained by every operation of the source). -/
def Framebuffer.Wf (fb : Framebuffer) : Prop :=
  fb.buffer.length = fb.width * fb.height ∧
  fb.zbuffer.length = fb.width * fb.height

/-- Constructor `Framebuffer::new` (`framebuffer.rs` line 13): color
buffer all black, z-buffer all `+∞`, background black, current color
white. -/
def Framebuffer.new (width height : ℕ) : Framebuffer :=
  { width := width
    height := height
    buffer := List.replicate (width * height) (Color.new 0 0 0)
    zbuffer := List.replicate (width * height) Depth.inf
    background_color := Color.new 0 0 0
    current_color := Color.new 255 255 255 }

/-- Depth-tested write `Framebuffer::point` (`framebuffer.rs` line 26):
in bounds and strictly closer than the stored depth, commit the current
color and the new depth; otherwise do nothing. -/
def Framebuffer.point (fb : Framebuffer) (x y : ℕ) (depth : Depth) :
    Framebuffer :=
  if x < fb.width ∧ y < fb.height then
    let index := y * fb.width + x
    if Depth.lt depth (fb.zbuffer.getD index Depth.inf) then
      { fb with
        buffer := fb.buffer.set index fb.current_color
        zbuffer := fb.zbuffer.set index depth }
    else fb
  else fb

/-- Unconditional write `Framebuffer::point_with_color`
(`framebuffer.rs` line 36): no depth test, writes only the color buffer. -/
def Framebuffer.point_with_color (fb : Framebuffer) (x y : ℕ)
    (color : Color) : Framebuffer :=
  if x < fb.width ∧ y < fb.height then
    { fb with buffer := fb.buffer.set (y * fb.width + x) color }
  else fb

/-- Setter `Framebuffer::set_background_color` (`framebuffer.rs` line 42). -/
def Framebuffer.set_background_color (fb : Framebuffer) (color : Color) :
    Framebuffer :=
  { fb with background_color := color }

/-- Setter `Framebuffer::set_current_color` (`framebuffer.rs` line 46):
takes a packed `u32` color. -/
def Framebuffer.set_current_color (fb : Framebuffer) (color : ℕ) :
    Framebuffer :=
  { fb with current_color := Color.from_hex color }

/-- Fill `Framebuffer::draw_rectangle` (`framebuffer.rs` line 50): nested
loops over `0..width` and `0..height` of unconditional writes. -/
def Framebuffer.draw_rectangle (fb : Framebuffer) (x y width height : ℕ)
    (color : Color) : Framebuffer :=
  (List.range width).foldl
    (fun acc i =>
      (List.range height).foldl
        (fun acc2 j => acc2.point_with_color (x + i) (y + j) color) acc)
    fb

/-- Reset `Framebuffer::clear` (`framebuffer.rs` line 65): every pixel
becomes the background color, every depth becomes `+∞`. -/
def Framebuffer.clear (fb : Framebuffer) : Framebuffer :=
  { fb with
    buffer := fb.buffer.map (fun _ => fb.background_color)
    zbuffer := fb.zbuffer.map (fun _ => Depth.inf) }

/-- One iteration step plus recursion of the Bresenham loop of
`Framebuffer::draw_line` (`framebuffer.rs` lines 98-114), with explicit
fuel; the loop state is `(x0, y0, err)`. -/
def Framebuffer.draw_line_loop (fuel : ℕ) (fb : Framebuffer)
    (color : Color) (x1 y1 dx dy sx sy x0 y0 err : ℤ) : Framebuffer :=
  match fuel with
  | 0 => fb
  | fuel + 1 =>
    let fb' :=
      if 0 ≤ x0 ∧ x0 < (fb.width : ℤ) ∧ 0 ≤ y0 ∧ y0 < (fb.height : ℤ) then
        fb.point_with_color x0.toNat y0.toNat color
      else fb
    if x0 = x1 ∧ y0 = y1 then fb'
    else
      let e2 := err
      let err1 := if e2 > -dx then err - dy else err
      let x0' := if e2 > -dx then x0 + sx else x0
      let err2 := if e2 < dy then err1 + dx else err1
      let y0' := if e2 < dy then y0 + sy else y0
      Framebuffer.draw_line_loop fuel fb' color x1 y1 dx dy sx sy x0' y0' err2

/-- Overlay line `Framebuffer::draw_line` (`framebuffer.rs` line 86):
integer Bresenham; coordinates cast to `isize` (here `ℤ`), the initial
error is a truncating division by 2, and the color is a packed `u32`
unpacked by `Color::from_hex` at each plotted pixel.  The loop is given
explicit fuel (`draw_line_loop`). -/
def Framebuffer.draw_line (fuel : ℕ) (fb : Framebuffer)
    (x0 y0 x1 y1 : ℕ) (color : ℕ) : Framebuffer :=
  let x0' : ℤ := (x0 : ℤ)
  let y0' : ℤ := (y0 : ℤ)
  let x1' : ℤ := (x1 : ℤ)
  let y1' : ℤ := (y1 : ℤ)
  let dx := |x1' - x0'|
  let dy := |y1' - y0'|
  let sx : ℤ := if x0' < x1' then 1 else -1
  let sy : ℤ := if y0' < y1' then 1 else -1
  let err := Int.tdiv (if dx > dy then dx else -dy) 2
  Framebuffer.draw_line_loop fuel fb (Color.from_hex color)
    x1' y1' dx dy sx sy x0' y0' err

/-- Two-component `f32` vector (`nalgebra_glm::Vec2`), over `ℚ`. -/
abbrev Vec2 := Fin 2 → ℚ

/-- Three-component `f32` vector (`nalgebra_glm::Vec3`), over `ℚ`. -/
abbrev Vec3 := Fin 3 → ℚ

/-- Four-component `f32` vector (`nalgebra_glm::Vec4`), over `ℚ`. -/
abbrev Vec4 := Fin 4 → ℚ

/-- The 3x3 `f32` matrix type (`nalgebra_glm::Mat3`), over `ℚ`. -/
abbrev Mat3 := Matrix (Fin 3) (Fin 3) ℚ

/-- The 4x4 `f32` matrix type (`nalgebra_glm::Mat4`), over `ℚ`. -/
abbrev Mat4 := Matrix (Fin 4) (Fin 4) ℚ

/-- Function `nalgebra_glm::mat4_to_mat3`: the upper-left 3x3 submatrix. -/
def mat4_to_mat3 (m : Mat4) : Mat3 :=
  fun i j => m i.castSucc j.castSucc

/-- Method `nalgebra::Matrix3::try_inverse`: `none` when the determinant
is zero, otherwise the inverse (adjugate over determinant). -/
def try_inverse (A : Mat3) : Option Mat3 :=
  if A.det = 0 then none else some (A.det⁻¹ • A.adjugate)

/-- Opaque noise collaborator (`fastnoise_lite::FastNoiseLite`): treated
as a pure function of its inputs, per the spec's external-interface
contract. -/
structure NoiseGenerator where
  get_noise_2d : ℚ → ℚ → ℚ
  get_noise_3d : ℚ → ℚ → ℚ → ℚ

/-- Per-draw-call uniforms (`main.rs`, `struct Uniforms`). -/
structure Uniforms where
  model_matrix : Mat4
  view_matrix : Mat4
  projection_matrix : Mat4
  viewport_matrix : Mat4
  time : ℕ
  noise : NoiseGenerator

/-- Vertex record (`vertex.rs`; the fields are exactly those read and
written by `vertex_shader` in `shaders.rs` lines 34-41). -/
structure Vertex where
  position : Vec3
  normal : Vec3
  tex_coords : Vec2
  color : Color
  transformed_position : Vec3
  transformed_normal : Vec3

/-- Fragment record (`fragment.rs`, `struct Fragment`). -/
structure Fragment where
  position : Vec2
  color : Color
  depth : ℚ
  normal : Vec3
  intensity : ℚ
  vertex_position : Vec3

/-- Normal-matrix computation inside `vertex_shader` (`shaders.rs` lines
25-29): the upper-left 3x3 of the model matrix, transposed, then
`try_inverse`, falling back to the identity when the inverse does not
exist. -/
def normal_matrix_of (u : Uniforms) : Mat3 :=
  let model_mat3 := mat4_to_mat3 u.model_matrix
  (try_inverse model_mat3.transpose).getD 1

/-- Vertex transform stage `vertex_shader` (`shaders.rs` lines 11-42):
model/view/projection transform, perspective division, viewport mapping,
and normal transform by the fallback-protected normal matrix.  Division
by a zero `w` follows the Lean convention `q / 0 = 0` (the claims do not
touch this case). -/
def vertex_shader (vertex : Vertex) (uniforms : Uniforms) : Vertex :=
  let position : Vec4 :=
    ![vertex.position 0, vertex.position 1, vertex.position 2, 1]
  let transformed :=
    (uniforms.projection_matrix * uniforms.view_matrix *
      uniforms.model_matrix).mulVec position
  let w := transformed 3
  let ndc_position : Vec4 :=
    ![transformed 0 / w, transformed 1 / w, transformed 2 / w, 1]
  let screen_position := uniforms.viewport_matrix.mulVec ndc_position
  let normal_matrix := normal_matrix_of uniforms
  let transformed_normal := normal_matrix.mulVec vertex.normal
  { vertex with
    transformed_position :=
      ![screen_position 0, screen_position 1, screen_position 2]
    transformed_normal := transformed_normal }

/-- Shading function `cloud_shader` (`shaders.rs` lines 240-265): sample
2-D noise at `(x*zoom + ox + t, y*zoom + oy)` with `zoom = 300`,
`ox = 100`, `oy = 10`, `t = time * 0.5`; above the threshold `0.5` the
cloud color (white), otherwise the sky color; scaled by the fragment
intensity. -/
def cloud_shader (fragment : Fragment) (uniforms : Uniforms) : Color :=
  let zoom : ℚ := 300
  let ox : ℚ := 100
  let oy : ℚ := 10
  let x := fragment.vertex_position 0
  let y := fragment.vertex_position 1
  let t : ℚ := (uniforms.time : ℚ) * (1/2)
  let noise_value := uniforms.noise.get_noise_2d (x * zoom + ox + t) (y * zoom + oy)
  let cloud_threshold : ℚ := 1/2
  let cloud_color := Color.new 255 255 255
  let sky_color := Color.new 30 97 145
  let noise_color :=
    if noise_value > cloud_threshold then cloud_color else sky_color
  noise_color.mulScalar fragment.intensity

/-- Primitive assembly stage of `render` (`main.rs` lines 174-183): the
loop `for i in (0..n).step_by(3) { if i + 2 < n { push [v[i], v[i+1],
v[i+2]] } }` groups every three consecutive vertices and drops a
trailing incomplete group. -/
def assembleTriangles {α : Type} : List α → List (α × α × α)
  | a :: b :: c :: rest => (a, b, c) :: assembleTriangles rest
  | _ => []

/-- First two stages of `render` (`main.rs` lines 166-183): map the
vertex shader over the vertex array, then assemble triangles. -/
def render_triangles (uniforms : Uniforms) (vertex_array : List Vertex) :
    List (Vertex × Vertex × Vertex) :=
  assembleTriangles (vertex_array.map (fun v => vertex_shader v uniforms))

/-- Default vertex used to instantiate universally quantified theorems. -/
def exVertex : Vertex :=
  { position := fun _ => 0
    normal := fun _ => 0
    tex_coords := fun _ => 0
    color := Color.black
    transformed_position := fun _ => 0
    transformed_normal := fun _ => 0 }

/-- Noise generator used by the cloud-shader counterexample: it returns
`0` exactly at x-coordinate `101` (where the code samples) and `1`
elsewhere (in particular at `400`, where the claimed formula samples). -/
def exCloudNoise : NoiseGenerator :=
  { get_noise_2d := fun a _ => if a = 101 then 0 else 1
    get_noise_3d := fun _ _ _ => 0 }

/-- Concrete uniforms for the cloud-shader counterexample: `time = 2`. -/
def exCloudUniforms : Uniforms :=
  { model_matrix := 1
    view_matrix := 1
    projection_matrix := 1
    viewport_matrix := 1
    time := 2
    noise := exCloudNoise }

/-- Concrete fragment at model-space position `(0,0,0)` with intensity 1. -/
def exCloudFragment : Fragment :=
  { position := fun _ => 0
    color := Color.black
    depth := 0
    normal := fun _ => 0
    intensity := 1
    vertex_position := fun _ => 0 }

/-- Concrete uniforms with identity matrices and zero noise. -/
def exUniforms : Uniforms :=
  { model_matrix := 1
    view_matrix := 1
    projection_matrix := 1
    viewport_matrix := 1
    time := 0
    noise := { get_noise_2d := fun _ _ => 0, get_noise_3d := fun _ _ _ => 0 } }

theorem satU8_le (n : ℤ) : satU8 n ≤ 255 := by
  unfold satU8; omega

theorem f32_to_u8_le (q : ℚ) : f32_to_u8 q ≤ 255 := by
  unfold f32_to_u8; exact satU8_le _

theorem Color.mulScalar_inRange (c : Color) (s : ℚ) :
    (c.mulScalar s).InRange :=
  ⟨f32_to_u8_le _, f32_to_u8_le _, f32_to_u8_le _⟩

theorem Color.to_hex_eq (c : Color) (h : c.InRange) :
    c.to_hex = c.r * 65536 + c.g * 256 + c.b := by
  obtain ⟨hr, hg, hb⟩ := h
  unfold Color.to_hex
  rw [Nat.shiftLeft_eq, Nat.shiftLeft_eq]
  have e1 : (2 : ℕ) ^ 16 = 65536 := by norm_num
  have e2 : (2 : ℕ) ^ 8 = 256 := by norm_num
  have o1 : c.r * 2 ^ 16 ||| c.g * 2 ^ 8 = c.r * 65536 + c.g * 256 := by
    have h1 : c.g * 2 ^ 8 < 2 ^ 16 := by rw [e1, e2]; omega
    have := (Nat.mul_add_lt_is_or h1 c.r).symm
    rw [Nat.mul_comm (2 ^ 16) c.r] at this
    rw [this, e1, e2]
  have o2 : c.r * 65536 + c.g * 256 ||| c.b = c.r * 65536 + c.g * 256 + c.b := by
    have h2 : c.b < 2 ^ 8 := by rw [e2]; omega
    have := (Nat.mul_add_lt_is_or h2 (c.r * 256 + c.g)).symm
    have e3 : 2 ^ 8 * (c.r * 256 + c.g) = c.r * 65536 + c.g * 256 := by
      rw [e2]; ring
    rw [e3] at this
    rw [this]
  rw [o1, o2]

theorem Color.from_hex_to_hex (c : Color) (h : c.InRange) :
    Color.from_hex c.to_hex = c := by
  obtain ⟨hr, hg, hb⟩ := h
  rw [Color.to_hex_eq c ⟨hr, hg, hb⟩]
  unfold Color.from_hex
  rw [Nat.shiftRight_eq_div_pow, Nat.shiftRight_eq_div_pow]
  have h255 : (0xFF : ℕ) = 2 ^ 8 - 1 := by norm_num
  rw [h255, Nat.and_pow_two_sub_one_eq_mod, Nat.and_pow_two_sub_one_eq_mod,
    Nat.and_pow_two_sub_one_eq_mod]
  have e1 : (2 : ℕ) ^ 16 = 65536 := by norm_num
  have e2 : (2 : ℕ) ^ 8 = 256 := by norm_num
  rw [e1, e2]
  cases c with
  | mk r g b =>
    simp only [Color.mk.injEq]
    refine ⟨?_, ?_, ?_⟩ <;> simp only at hr hg hb ⊢ <;> omega

theorem rust_round_natCast (n : ℕ) : rust_round (n : ℚ) = n := by
  unfold rust_round
  rw [if_pos (by positivity)]
  have e : ((n : ℚ) + 1 / 2) = 1 / 2 + ((n : ℤ) : ℚ) := by push_cast; ring
  rw [e, Int.floor_add_int]
  norm_num

theorem satU8_natCast (n : ℕ) (h : n ≤ 255) : satU8 (n : ℤ) = n := by
  unfold satU8; omega

theorem index_lt {x y w h : ℕ} (hx : x < w) (hy : y < h) :
    y * w + x < w * h := by
  calc y * w + x < y * w + w := by omega
    _ = (y + 1) * w := by ring
    _ ≤ h * w := Nat.mul_le_mul_right w hy
    _ = w * h := Nat.mul_comm h w

theorem getElem?_map_const {α β : Type} {v : β} :
    ∀ (l : List α) (i : ℕ), i < l.length →
      (l.map fun _ => v)[i]? = some v
  | _ :: _, 0, _ => by simp
  | _ :: l, i + 1, h => by
      simpa using getElem?_map_const l i (by simpa using h)
  | [], i, h => absurd h (by simp)

theorem getD_map_const {α β : Type} {v d : β} :
    ∀ (l : List α) (i : ℕ), i < l.length →
      (l.map fun _ => v).getD i d = v
  | _ :: _, 0, _ => rfl
  | _ :: l, i + 1, h => getD_map_const l i (by simpa using h)
  | [], i, h => absurd h (by simp)

theorem getD_set_self {α : Type} {d : α} :
    ∀ (l : List α) (i : ℕ) (a : α), i < l.length →
      (l.set i a).getD i d = a
  | _ :: _, 0, _, _ => rfl
  | _ :: l, i + 1, a, h => getD_set_self l i a (by simpa using h)
  | [], _, _, h => absurd h (by simp)

theorem point_pass (fb : Framebuffer) (x y : ℕ) (d : Depth)
    (hx : x < fb.width) (hy : y < fb.height)
    (h : Depth.lt d (fb.zbuffer.getD (y * fb.width + x) Depth.inf) = true) :
    fb.point x y d =
      { fb with
        buffer := fb.buffer.set (y * fb.width + x) fb.current_color
        zbuffer := fb.zbuffer.set (y * fb.width + x) d } := by
  unfold Framebuffer.point
  rw [if_pos ⟨hx, hy⟩, if_pos h]

theorem point_fail (fb : Framebuffer) (x y : ℕ) (d : Depth)
    (h : Depth.lt d (fb.zbuffer.getD (y * fb.width + x) Depth.inf) = false) :
    fb.point x y d = fb := by
  rw [List.getD_eq_getElem?_getD] at h
  unfold Framebuffer.point
  split
  · rw [if_neg (by simp [List.getD_eq_getElem?_getD, h])]
  · rfl

theorem point_width (fb : Framebuffer) (x y : ℕ) (d : Depth) :
    (fb.point x y d).width = fb.width := by
  unfold Framebuffer.point
  split
  · dsimp only
    split <;> rfl
  · rfl

theorem point_height (fb : Framebuffer) (x y : ℕ) (d : Depth) :
    (fb.point x y d).height = fb.height := by
  unfold Framebuffer.point
  split
  · dsimp only
    split <;> rfl
  · rfl

theorem point_pass_buffer (fb : Framebuffer) (x y : ℕ) (d : Depth)
    (hx : x < fb.width) (hy : y < fb.height)
    (h : Depth.lt d (fb.zbuffer.getD (y * fb.width + x) Depth.inf) = true) :
    (fb.point x y d).buffer =
      fb.buffer.set (y * fb.width + x) fb.current_color := by
  rw [point_pass fb x y d hx hy h]

theorem point_pass_zbuffer (fb : Framebuffer) (x y : ℕ) (d : Depth)
    (hx : x < fb.width) (hy : y < fb.height)
    (h : Depth.lt d (fb.zbuffer.getD (y * fb.width + x) Depth.inf) = true) :
    (fb.point x y d).zbuffer = fb.zbuffer.set (y * fb.width + x) d := by
  rw [point_pass fb x y d hx hy h]

theorem point_with_color_zbuffer (fb : Framebuffer) (x y : ℕ) (c : Color) :
    (fb.point_with_color x y c).zbuffer = fb.zbuffer := by
  unfold Framebuffer.point_with_color
  split <;> rfl

theorem point_with_color_width (fb : Framebuffer) (x y : ℕ) (c : Color) :
    (fb.point_with_color x y c).width = fb.width := by
  unfold Framebuffer.point_with_color
  split <;> rfl

theorem point_with_color_height (fb : Framebuffer) (x y : ℕ) (c : Color) :
    (fb.point_with_color x y c).height = fb.height := by
  unfold Framebuffer.point_with_color
  split <;> rfl

theorem foldl_zbuffer {β : Type} (f : Framebuffer → β → Framebuffer)
    (hf : ∀ fb b, (f fb b).zbuffer = fb.zbuffer) :
    ∀ (l : List β) (fb : Framebuffer), (l.foldl f fb).zbuffer = fb.zbuffer
  | [], _ => rfl
  | b :: l, fb => by
      rw [List.foldl_cons, foldl_zbuffer f hf l (f fb b), hf]

theorem draw_line_loop_zbuffer :
    ∀ (fuel : ℕ) (fb : Framebuffer) (c : Color) (x1 y1 dx dy sx sy x0 y0 e : ℤ),
      (Framebuffer.draw_line_loop fuel fb c x1 y1 dx dy sx sy x0 y0 e).zbuffer =
        fb.zbuffer
  | 0, _, _, _, _, _, _, _, _, _, _, _ => rfl
  | fuel + 1, fb, c, x1, y1, dx, dy, sx, sy, x0, y0, e => by
      unfold Framebuffer.draw_line_loop
      split
      all_goals dsimp only
      all_goals split
      · exact point_with_color_zbuffer fb _ _ _
      · rw [draw_line_loop_zbuffer fuel]
        exact point_with_color_zbuffer fb _ _ _
      · rfl
      · rw [draw_line_loop_zbuffer fuel]

theorem assembleTriangles_length {α : Type} :
    ∀ l : List α, (assembleTriangles l).length = l.length / 3
  | [] => by simp [assembleTriangles]
  | [_] => by simp [assembleTriangles]
  | [_, _] => by simp [assembleTriangles]
  | a :: b :: c :: rest => by
      have ih := assembleTriangles_length rest
      simp only [assembleTriangles, List.length_cons, ih]
      omega

theorem assembleTriangles_getElem {α : Type} :
    ∀ (l : List α) (k : ℕ), k < l.length / 3 →
      ∃ a b c, l[3 * k]? = some a ∧ l[3 * k + 1]? = some b ∧
        l[3 * k + 2]? = some c ∧ (assembleTriangles l)[k]? = some (a, b, c)
  | [], k, hk => absurd hk (by simp)
  | [_], k, hk => absurd hk (by simp)
  | [_, _], k, hk => absurd hk (by simp)
  | a :: b :: c :: rest, 0, _ => ⟨a, b, c, by simp, by simp, by simp, by
      simp [assembleTriangles]⟩
  | a :: b :: c :: rest, k + 1, hk => by
      have hk' : k < rest.length / 3 := by
        simp only [List.length_cons] at hk
        omega
      obtain ⟨x, y, z, h1, h2, h3, h4⟩ := assembleTriangles_getElem rest k hk'
      have e3 : 3 * (k + 1) = 3 * k + 1 + 1 + 1 := by ring
      refine ⟨x, y, z, ?_, ?_, ?_, ?_⟩
      · rw [e3]
        simpa using h1
      · rw [e3]
        simpa using h2
      · rw [e3]
        simpa using h3
      · simpa [assembleTriangles] using h4

/-- Claim C4: for all byte-valued colors, every blend operator and every
`Color` arithmetic operator returns channel values in `[0,255]`,
saturating rather than wrapping: addition caps each channel at 255 and
subtraction floors each channel at 0.  (In the embedding the wide
intermediate types `u16`/`i16`/`f32` of the source are `ℕ`/`ℤ`/`ℚ`,
which cannot overflow; the stated range bounds are what overflow-freedom
observably means.) -/
theorem blend_and_arith_saturate (a b : Color)
    (ha : a.InRange) (hb : b.InRange) :
    (a.blend_normal b).InRange ∧
    (a.blend_multiply b).InRange ∧
    (a.blend_add b).InRange ∧
    (a.blend_subtract b).InRange ∧
    (a.blend_screen b).InRange ∧
    (a.add b).InRange ∧
    (∀ s : ℚ, (a.mulScalar s).InRange) ∧
    a.blend_add b =
      Color.new (min (a.r + b.r) 255) (min (a.g + b.g) 255)
        (min (a.b + b.b) 255) ∧
    a.add b =
      Color.new (min (a.r + b.r) 255) (min (a.g + b.g) 255)
        (min (a.b + b.b) 255) ∧
    a.blend_subtract b = Color.new (a.r - b.r) (a.g - b.g) (a.b - b.b) := by
  obtain ⟨har, hag, hab⟩ := ha
  obtain ⟨hbr, hbg, hbb⟩ := hb
  have hmul : ∀ m n : ℕ, m ≤ 255 → n ≤ 255 → m * n / 255 ≤ 255 := by
    intro m n hm hn
    have h1 : m * n ≤ 255 * 255 := Nat.mul_le_mul hm hn
    have h2 := Nat.div_le_div_right (c := 255) h1
    omega
  have hclamp : ∀ z : ℤ, (min (max z 0) 255).toNat ≤ 255 := by
    intro z; omega
  refine ⟨?_, ?_, ?_, ?_, ?_, ?_, ?_, ?_, ?_, ?_⟩
  · unfold Color.blend_normal
    split
    · exact ⟨har, hag, hab⟩
    · exact ⟨hbr, hbg, hbb⟩
  · exact ⟨hmul _ _ har hbr, hmul _ _ hag hbg, hmul _ _ hab hbb⟩
  · exact ⟨min_le_right _ _, min_le_right _ _, min_le_right _ _⟩
  · exact ⟨hclamp _, hclamp _, hclamp _⟩
  · exact ⟨Nat.sub_le _ _, Nat.sub_le _ _, Nat.sub_le _ _⟩
  · exact ⟨min_le_right _ _, min_le_right _ _, min_le_right _ _⟩
  · exact fun s => Color.mulScalar_inRange a s
  · rfl
  · rfl
  · simp only [Color.blend_subtract, Color.new, Color.mk.injEq]
    refine ⟨?_, ?_, ?_⟩ <;> omega

/-- Witness for C4 at the boundary-heavy inputs `(255, 0, 200)` and
`(255, 255, 100)`. -/
theorem blend_and_arith_saturate_witness :
    (Color.new 255 0 200).InRange ∧ (Color.new 255 255 100).InRange ∧
    (((Color.new 255 0 200).blend_normal (Color.new 255 255 100)).InRange ∧
     ((Color.new 255 0 200).blend_multiply (Color.new 255 255 100)).InRange ∧
     ((Color.new 255 0 200).blend_add (Color.new 255 255 100)).InRange ∧
     ((Color.new 255 0 200).blend_subtract (Color.new 255 255 100)).InRange ∧
     ((Color.new 255 0 200).blend_screen (Color.new 255 255 100)).InRange ∧
     ((Color.new 255 0 200).add (Color.new 255 255 100)).InRange ∧
     (∀ s : ℚ, ((Color.new 255 0 200).mulScalar s).InRange) ∧
     (Color.new 255 0 200).blend_add (Color.new 255 255 100) =
       Color.new (min (255 + 255) 255) (min (0 + 255) 255)
         (min (200 + 100) 255) ∧
     (Color.new 255 0 200).add (Color.new 255 255 100) =
       Color.new (min (255 + 255) 255) (min (0 + 255) 255)
         (min (200 + 100) 255) ∧
     (Color.new 255 0 200).blend_subtract (Color.new 255 255 100) =
       Color.new (255 - 255) (0 - 255) (200 - 100)) :=
  ⟨by decide, by decide,
    blend_and_arith_saturate (Color.new 255 0 200) (Color.new 255 255 100)
      (by decide) (by decide)⟩

/-- Claim C5: for every byte-valued color, `from_hex (to_hex c) = c`,
and `to_hex` packs the channels into a 24-bit integer with the high
byte being R. -/
theorem from_hex_to_hex_round_trip (c : Color) (h : c.InRange) :
    Color.from_hex c.to_hex = c ∧
    c.to_hex = c.r * 2 ^ 16 + c.g * 2 ^ 8 + c.b := by
  refine ⟨Color.from_hex_to_hex c h, ?_⟩
  rw [Color.to_hex_eq c h]
  norm_num

/-- Witness for C5 at the color `(0x12, 0x34, 0xFF)`. -/
theorem from_hex_to_hex_round_trip_witness :
    (Color.new 18 52 255).InRange ∧
    (Color.from_hex (Color.new 18 52 255).to_hex = Color.new 18 52 255 ∧
     (Color.new 18 52 255).to_hex =
       (Color.new 18 52 255).r * 2 ^ 16 + (Color.new 18 52 255).g * 2 ^ 8 +
         (Color.new 18 52 255).b) :=
  ⟨by decide, from_hex_to_hex_round_trip (Color.new 18 52 255) (by decide)⟩

/-- Claim C6: linear interpolation is exact at the endpoints:
`lerp a b 0 = a` and `lerp a b 1 = b` for all byte-valued colors; the
embedding computes each channel as `round(a + (b - a) * t)` with `t`
clamped to `[0,1]`, as the source does. -/
theorem lerp_endpoints (a b : Color) (ha : a.InRange) (hb : b.InRange) :
    a.lerp b 0 = a ∧ a.lerp b 1 = b := by
  have key0 : ∀ m n : ℕ, m ≤ 255 →
      satU8 (rust_round ((m : ℚ) + ((n : ℚ) - (m : ℚ)) * min (max 0 0) 1)) = m := by
    intro m n hm
    have h0 : (min (max (0 : ℚ) 0) 1) = 0 := by norm_num
    rw [h0]
    have e : (m : ℚ) + ((n : ℚ) - (m : ℚ)) * 0 = (m : ℚ) := by ring
    rw [e, rust_round_natCast, satU8_natCast m hm]
  have key1 : ∀ m n : ℕ, n ≤ 255 →
      satU8 (rust_round ((m : ℚ) + ((n : ℚ) - (m : ℚ)) * min (max 1 0) 1)) = n := by
    intro m n hn
    have h1 : (min (max (1 : ℚ) 0) 1) = 1 := by norm_num
    rw [h1]
    have e : (m : ℚ) + ((n : ℚ) - (m : ℚ)) * 1 = (n : ℚ) := by ring
    rw [e, rust_round_natCast, satU8_natCast n hn]
  obtain ⟨har, hag, hab⟩ := ha
  obtain ⟨hbr, hbg, hbb⟩ := hb
  constructor
  · simp only [Color.lerp]
    cases a with
    | mk r g b =>
      simp only [Color.mk.injEq]
      exact ⟨key0 r _ har, key0 g _ hag, key0 b _ hab⟩
  · simp only [Color.lerp]
    cases b with
    | mk r g b =>
      simp only [Color.mk.injEq]
      exact ⟨key1 _ r hbr, key1 _ g hbg, key1 _ b hbb⟩

/-- Witness for C6 at the colors `(0, 128, 255)` and `(255, 7, 0)`. -/
theorem lerp_endpoints_witness :
    (Color.new 0 128 255).InRange ∧ (Color.new 255 7 0).InRange ∧
    ((Color.new 0 128 255).lerp (Color.new 255 7 0) 0 = Color.new 0 128 255 ∧
     (Color.new 0 128 255).lerp (Color.new 255 7 0) 1 = Color.new 255 7 0) :=
  ⟨by decide, by decide,
    lerp_endpoints (Color.new 0 128 255) (Color.new 255 7 0)
      (by decide) (by decide)⟩

/-- Claim C7: any write at coordinates with `x >= width` or
`y >= height` is a silent no-op for both the depth-tested write `point`
and the unconditional write `point_with_color`: the whole frame buffer
(color buffer and depth buffer included) is returned unchanged.  Both
operations are total functions, so no fault is possible. -/
theorem out_of_bounds_write_noop (fb : Framebuffer) (x y : ℕ)
    (d : Depth) (c : Color) (h : fb.width ≤ x ∨ fb.height ≤ y) :
    fb.point x y d = fb ∧ fb.point_with_color x y c = fb := by
  constructor
  · unfold Framebuffer.point
    rw [if_neg (by omega)]
  · unfold Framebuffer.point_with_color
    rw [if_neg (by omega)]

/-- Witness for C7 on a 2x3 frame buffer at the out-of-bounds pixel
`(7, 1)`. -/
theorem out_of_bounds_write_noop_witness :
    ((Framebuffer.new 2 3).width ≤ 7 ∨ (Framebuffer.new 2 3).height ≤ 1) ∧
    ((Framebuffer.new 2 3).point 7 1 (Depth.fin 0) = Framebuffer.new 2 3 ∧
     (Framebuffer.new 2 3).point_with_color 7 1 Color.black =
       Framebuffer.new 2 3) :=
  ⟨by decide,
    out_of_bounds_write_noop (Framebuffer.new 2 3) 7 1 (Depth.fin 0)
      Color.black (by decide)⟩

/-- Claim C9: for every input vertex list, primitive assembly produces
exactly `floor(n / 3)` triangles (unconditionally — in particular a
list of 0, 1 or 2 vertices produces zero triangles, so trailing
vertices that do not complete a triple are silently dropped), and the
`k`-th produced triangle consists of the transformed vertices at
indices `3k`, `3k+1`, `3k+2`, in order. -/
theorem primitive_assembly_triples (u : Uniforms) (vs : List Vertex) :
    (render_triangles u vs).length = vs.length / 3 ∧
    ∀ k : ℕ, k < vs.length / 3 →
      ∃ a b c,
        (vs.map (fun v => vertex_shader v u))[3 * k]? = some a ∧
        (vs.map (fun v => vertex_shader v u))[3 * k + 1]? = some b ∧
        (vs.map (fun v => vertex_shader v u))[3 * k + 2]? = some c ∧
        (render_triangles u vs)[k]? = some (a, b, c) := by
  constructor
  · unfold render_triangles
    rw [assembleTriangles_length, List.length_map]
  · intro k hk
    unfold render_triangles
    exact assembleTriangles_getElem _ k (by simpa using hk)

/-- Witness for C9: on a 4-vertex list exactly one triangle is produced
(the trailing vertex is dropped) and it is the first three transformed
vertices; on a 2-vertex list no triangle is produced at all. -/
theorem primitive_assembly_triples_witness :
    ((render_triangles exUniforms
        [exVertex, exVertex, exVertex, exVertex]).length =
      ([exVertex, exVertex, exVertex, exVertex] : List Vertex).length / 3) ∧
    (0 < ([exVertex, exVertex, exVertex, exVertex] : List Vertex).length / 3) ∧
    (∃ a b c,
      (([exVertex, exVertex, exVertex, exVertex] : List Vertex).map
          (fun v => vertex_shader v exUniforms))[3 * 0]? = some a ∧
      (([exVertex, exVertex, exVertex, exVertex] : List Vertex).map
          (fun v => vertex_shader v exUniforms))[3 * 0 + 1]? = some b ∧
      (([exVertex, exVertex, exVertex, exVertex] : List Vertex).map
          (fun v => vertex_shader v exUniforms))[3 * 0 + 2]? = some c ∧
      (render_triangles exUniforms
          [exVertex, exVertex, exVertex, exVertex])[0]? = some (a, b, c)) ∧
    ((render_triangles exUniforms [exVertex, exVertex]).length =
      ([exVertex, exVertex] : List Vertex).length / 3) :=
  ⟨(primitive_assembly_triples exUniforms
      [exVertex, exVertex, exVertex, exVertex]).1,
    by decide,
    (primitive_assembly_triples exUniforms
      [exVertex, exVertex, exVertex, exVertex]).2 0 (by decide),
    (primitive_assembly_triples exUniforms [exVertex, exVertex]).1⟩

/-- Claim C10: the unconditional drawing operations `point_with_color`,
`draw_rectangle` and `draw_line` leave the depth buffer unchanged, for
all coordinates, sizes, fuel and colors. -/
theorem overlay_draws_preserve_zbuffer (fb : Framebuffer)
    (x y wr hr x0 y0 x1 y1 fuel hexcolor : ℕ) (c : Color) :
    (fb.point_with_color x y c).zbuffer = fb.zbuffer ∧
    (fb.draw_rectangle x y wr hr c).zbuffer = fb.zbuffer ∧
    (fb.draw_line fuel x0 y0 x1 y1 hexcolor).zbuffer = fb.zbuffer := by
  refine ⟨point_with_color_zbuffer fb x y c, ?_, ?_⟩
  · unfold Framebuffer.draw_rectangle
    exact foldl_zbuffer _
      (fun g i => foldl_zbuffer _
        (fun g2 j => point_with_color_zbuffer g2 _ _ _) _ g) _ fb
  · unfold Framebuffer.draw_line
    exact draw_line_loop_zbuffer fuel _ _ _ _ _ _ _ _ _ _ _

/-- Claim C8: the vertex transform stage computes the normal matrix as
the transpose of the inverse of the model matrix's upper-left 3x3
submatrix, falling back to the 3x3 identity when that inverse does not
exist (zero determinant), and transforms the vertex normal by this
matrix. -/
theorem vertex_shader_normal_matrix (v : Vertex) (u : Uniforms) :
    normal_matrix_of u =
      (if (mat4_to_mat3 u.model_matrix).det = 0 then (1 : Mat3)
       else ((mat4_to_mat3 u.model_matrix)⁻¹).transpose) ∧
    (vertex_shader v u).transformed_normal =
      (normal_matrix_of u).mulVec v.normal := by
  constructor
  · by_cases h : (mat4_to_mat3 u.model_matrix).det = 0
    · rw [if_pos h]
      unfold normal_matrix_of try_inverse
      dsimp only
      rw [if_pos (by rw [Matrix.det_transpose]; exact h)]
      rfl
    · rw [if_neg h, Matrix.transpose_nonsing_inv]
      unfold normal_matrix_of try_inverse
      dsimp only
      rw [if_neg (by rw [Matrix.det_transpose]; exact h)]
      simp [Matrix.inv_def, Ring.inverse_eq_inv]
  · rfl

/-- Claim C3 (amended): the cloud shader samples 2-D noise at
`(x*300 + 100 + time*0.5, y*300 + 10)` — the x-offset animates with
`time * 0.5`, not `time * 0.5 * 300` — where `(x, y)` is the fragment's
model-space vertex position; above the threshold `0.5` the result is
white, otherwise the fixed sky-blue `(30, 97, 145)`, and the chosen
color is multiplied by the fragment's intensity. -/
theorem cloud_shader_formula (fragment : Fragment) (uniforms : Uniforms) :
    cloud_shader fragment uniforms =
      Color.mulScalar
        (if uniforms.noise.get_noise_2d
              (fragment.vertex_position 0 * 300 + 100 +
                (uniforms.time : ℚ) * (1/2))
              (fragment.vertex_position 1 * 300 + 10) > 1/2
         then Color.new 255 255 255
         else Color.new 30 97 145)
        fragment.intensity := rfl

/-- Counterexample to C3 as stated: with `time = 2`, the code samples
noise at x-coordinate `0*300 + 100 + 2*0.5 = 101`, not at
`0*300 + 100 + 2*0.5*300 = 400` as the claimed formula says; a noise
function distinguishing `101` from `400` makes the code's result
(sky-blue) differ from the claimed formula's result (white). -/
theorem cloud_shader_time_offset_counterexample :
    cloud_shader exCloudFragment exCloudUniforms ≠
      Color.mulScalar
        (if exCloudUniforms.noise.get_noise_2d
              (exCloudFragment.vertex_position 0 * 300 + 100 +
                (exCloudUniforms.time : ℚ) * (1/2) * 300)
              (exCloudFragment.vertex_position 1 * 300 + 10) > 1/2
         then Color.new 255 255 255
         else Color.new 30 97 145)
        exCloudFragment.intensity := by
  have hL : cloud_shader exCloudFragment exCloudUniforms =
      Color.new 30 97 145 := by
    unfold cloud_shader exCloudFragment exCloudUniforms exCloudNoise
    norm_num [Color.mulScalar, f32_to_u8, satU8, Color.new]
    omega
  have hR : Color.mulScalar
        (if exCloudUniforms.noise.get_noise_2d
              (exCloudFragment.vertex_position 0 * 300 + 100 +
                (exCloudUniforms.time : ℚ) * (1/2) * 300)
              (exCloudFragment.vertex_position 1 * 300 + 10) > 1/2
         then Color.new 255 255 255
         else Color.new 30 97 145)
        exCloudFragment.intensity = Color.new 255 255 255 := by
    unfold exCloudFragment exCloudUniforms exCloudNoise
    norm_num [Color.mulScalar, f32_to_u8, satU8, Color.new]
    omega
  rw [hL, hR]
  decide

/-- Claim C2 (amended): after `clear()` every pixel of the color buffer
is the configured background color and every depth-buffer entry is
`+∞`; a depth-tested write immediately after `clear()` at any in-bounds
pixel passes the depth test — committing the current color and its
depth — for every finite depth value (a depth of `+∞` is not strictly
less than the stored `+∞` and therefore fails). -/
theorem clear_resets_and_finite_write_passes (fb : Framebuffer)
    (x y i : ℕ)
    (hb : fb.buffer.length = fb.width * fb.height)
    (hz : fb.zbuffer.length = fb.width * fb.height)
    (hi : i < fb.width * fb.height)
    (hx : x < fb.width) (hy : y < fb.height) :
    fb.clear.buffer[i]? = some fb.background_color ∧
    fb.clear.zbuffer[i]? = some Depth.inf ∧
    ∀ q : ℚ,
      (fb.clear.point x y (Depth.fin q)).buffer[y * fb.width + x]? =
        some fb.current_color ∧
      (fb.clear.point x y (Depth.fin q)).zbuffer[y * fb.width + x]? =
        some (Depth.fin q) := by
  have hidx : y * fb.width + x < fb.width * fb.height := index_lt hx hy
  refine ⟨?_, ?_, ?_⟩
  · exact getElem?_map_const fb.buffer i (by rw [hb]; exact hi)
  · exact getElem?_map_const fb.zbuffer i (by rw [hz]; exact hi)
  · intro q
    have hgetD : fb.clear.zbuffer.getD (y * fb.clear.width + x) Depth.inf =
        Depth.inf :=
      getD_map_const fb.zbuffer _ (by rw [hz]; exact hidx)
    have hpass := point_pass fb.clear x y (Depth.fin q) hx hy
      (by rw [hgetD]; rfl)
    rw [hpass]
    constructor
    · exact List.getElem?_set_self
        (by simp only [Framebuffer.clear, List.length_map]; rw [hb]; exact hidx)
    · exact List.getElem?_set_self
        (by simp only [Framebuffer.clear, List.length_map]; rw [hz]; exact hidx)

/-- Counterexample to C2 as stated: on a freshly cleared 1x1 frame
buffer, the caller may supply the depth `+∞`, and that write fails the
depth test (`∞ < ∞` is false): the buffer keeps the background color
(black) instead of committing the current color (white). -/
theorem clear_write_inf_depth_counterexample :
    ((Framebuffer.new 1 1).clear.point 0 0 Depth.inf).buffer[0]? =
      some (Color.new 0 0 0) ∧
    ((Framebuffer.new 1 1).clear.point 0 0 Depth.inf).current_color =
      Color.new 255 255 255 ∧
    Color.new 0 0 0 ≠ Color.new 255 255 255 := by
  refine ⟨?_, rfl, by decide⟩
  rfl

/-- Witness for C2 on a 2x2 frame buffer, pixel `(1, 0)`, entry `3`. -/
theorem clear_resets_and_finite_write_passes_witness :
    ((Framebuffer.new 2 2).buffer.length =
        (Framebuffer.new 2 2).width * (Framebuffer.new 2 2).height ∧
     (Framebuffer.new 2 2).zbuffer.length =
        (Framebuffer.new 2 2).width * (Framebuffer.new 2 2).height ∧
     3 < (Framebuffer.new 2 2).width * (Framebuffer.new 2 2).height ∧
     1 < (Framebuffer.new 2 2).width ∧ 0 < (Framebuffer.new 2 2).height) ∧
    ((Framebuffer.new 2 2).clear.buffer[3]? =
        some (Framebuffer.new 2 2).background_color ∧
     (Framebuffer.new 2 2).clear.zbuffer[3]? = some Depth.inf ∧
     ∀ q : ℚ,
       ((Framebuffer.new 2 2).clear.point 1 0
           (Depth.fin q)).buffer[0 * (Framebuffer.new 2 2).width + 1]? =
         some (Framebuffer.new 2 2).current_color ∧
       ((Framebuffer.new 2 2).clear.point 1 0
           (Depth.fin q)).zbuffer[0 * (Framebuffer.new 2 2).width + 1]? =
         some (Depth.fin q)) :=
  ⟨⟨by decide, by decide, by decide, by decide, by decide⟩,
    clear_resets_and_finite_write_passes (Framebuffer.new 2 2) 1 0 3
      (by decide) (by decide) (by decide) (by decide) (by decide)⟩

/-- Claim C1: the depth-tested write `point` commits the current color
and the new depth at an in-bounds pixel exactly when the new depth is
strictly less than the stored depth (first conjunct, both directions of
the test); consequently, starting from a cleared buffer and submitting
three writes at the same pixel with depths 2.0, 1.0, 3.0 (in that
order, with current colors `c1`, `c2`, `c3` set before each write), the
committed color is `c2` and the stored depth is 1.0, the depth of the
last write that passed the test (second conjunct). -/
theorem point_depth_test_scenario (fb : Framebuffer) (x y : ℕ)
    (c1 c2 c3 : Color)
    (hb : fb.buffer.length = fb.width * fb.height)
    (hz : fb.zbuffer.length = fb.width * fb.height)
    (hx : x < fb.width) (hy : y < fb.height)
    (h1 : c1.InRange) (h2 : c2.InRange) (h3 : c3.InRange) :
    (∀ d : Depth,
      (Depth.lt d (fb.zbuffer.getD (y * fb.width + x) Depth.inf) = true →
        fb.point x y d =
          { fb with
            buffer := fb.buffer.set (y * fb.width + x) fb.current_color
            zbuffer := fb.zbuffer.set (y * fb.width + x) d }) ∧
      (Depth.lt d (fb.zbuffer.getD (y * fb.width + x) Depth.inf) = false →
        fb.point x y d = fb)) ∧
    ((((((fb.clear.set_current_color c1.to_hex).point x y
          (Depth.fin 2)).set_current_color c2.to_hex).point x y
          (Depth.fin 1)).set_current_color c3.to_hex).point x y
        (Depth.fin 3)).buffer[y * fb.width + x]? = some c2 ∧
    ((((((fb.clear.set_current_color c1.to_hex).point x y
          (Depth.fin 2)).set_current_color c2.to_hex).point x y
          (Depth.fin 1)).set_current_color c3.to_hex).point x y
        (Depth.fin 3)).zbuffer[y * fb.width + x]? =
      some (Depth.fin 1) := by
  have hidx : y * fb.width + x < fb.width * fb.height := index_lt hx hy
  refine ⟨fun d => ⟨point_pass fb x y d hx hy, point_fail fb x y d⟩, ?_⟩
  set F0 := fb.clear.set_current_color c1.to_hex with hF0
  set A := F0.point x y (Depth.fin 2) with hA
  set F1 := A.set_current_color c2.to_hex with hF1
  set B := F1.point x y (Depth.fin 1) with hB
  set F2 := B.set_current_color c3.to_hex with hF2
  have hlt1 : Depth.lt (Depth.fin 2)
      (F0.zbuffer.getD (y * F0.width + x) Depth.inf) = true := by
    show Depth.lt (Depth.fin 2)
      ((fb.zbuffer.map fun _ => Depth.inf).getD (y * fb.width + x)
        Depth.inf) = true
    rw [getD_map_const fb.zbuffer _ (by rw [hz]; exact hidx)]
    rfl
  have hAw : A.width = fb.width := by
    rw [hA]
    exact point_width F0 x y (Depth.fin 2)
  have hAh : A.height = fb.height := by
    rw [hA]
    exact point_height F0 x y (Depth.fin 2)
  have hAz : A.zbuffer =
      (fb.zbuffer.map fun _ => Depth.inf).set (y * fb.width + x)
        (Depth.fin 2) := by
    have h' := point_pass_zbuffer F0 x y (Depth.fin 2) hx hy hlt1
    rw [hA]
    exact h'
  have hAb : A.buffer =
      (fb.buffer.map fun _ => fb.background_color).set (y * fb.width + x)
        (Color.from_hex c1.to_hex) := by
    have h' := point_pass_buffer F0 x y (Depth.fin 2) hx hy hlt1
    rw [hA]
    exact h'
  have hF1w : F1.width = fb.width := by
    rw [hF1]
    show A.width = fb.width
    exact hAw
  have hF1h : F1.height = fb.height := by
    rw [hF1]
    show A.height = fb.height
    exact hAh
  have hF1z : F1.zbuffer = A.zbuffer := by
    rw [hF1]; rfl
  have hF1b : F1.buffer = A.buffer := by
    rw [hF1]; rfl

  have hlt2 : Depth.lt (Depth.fin 1)
      (F1.zbuffer.getD (y * F1.width + x) Depth.inf) = true := by
    rw [hF1z, hF1w, hAz,
      getD_set_self _ _ _
        (by rw [List.length_map, hz]; exact hidx)]
    decide
  have hxB : x < F1.width := by rw [hF1w]; exact hx
  have hyB : y < F1.height := by rw [hF1h]; exact hy
  have hBw : B.width = fb.width := by
    rw [hB, point_width F1 x y (Depth.fin 1)]
    exact hF1w
  have hBb : B.buffer =
      ((fb.buffer.map fun _ => fb.background_color).set (y * fb.width + x)
        (Color.from_hex c1.to_hex)).set (y * fb.width + x)
        (Color.from_hex c2.to_hex) := by
    rw [hB, point_pass_buffer F1 x y (Depth.fin 1) hxB hyB hlt2,
      hF1b, hAb, hF1w]
    show _ = List.set _ (y * fb.width + x) F1.current_color
    rw [hF1]
  have hBz : B.zbuffer =
      ((fb.zbuffer.map fun _ => Depth.inf).set (y * fb.width + x)
        (Depth.fin 2)).set (y * fb.width + x) (Depth.fin 1) := by
    rw [hB, point_pass_zbuffer F1 x y (Depth.fin 1) hxB hyB hlt2,
      hF1z, hAz, hF1w]
  have hF2z : F2.zbuffer = B.zbuffer := by
    rw [hF2]; rfl
  have hF2b : F2.buffer = B.buffer := by
    rw [hF2]; rfl
  have hF2w : F2.width = fb.width := by
    rw [hF2]
    show B.width = fb.width
    exact hBw
  have hlt3 : Depth.lt (Depth.fin 3)
      (F2.zbuffer.getD (y * F2.width + x) Depth.inf) = false := by
    rw [hF2z, hF2w, hBz,
      getD_set_self _ _ _
        (by rw [List.length_set, List.length_map, hz]; exact hidx)]
    decide
  rw [point_fail F2 x y (Depth.fin 3) hlt3]
  constructor
  · rw [hF2b, hBb, Color.from_hex_to_hex c2 h2]
    exact List.getElem?_set_self
      (by rw [List.length_set, List.length_map, hb]; exact hidx)
  · rw [hF2z, hBz]
    exact List.getElem?_set_self
      (by rw [List.length_set, List.length_map, hz]; exact hidx)

/-- Witness for C1 on a 2x2 frame buffer at pixel `(0, 1)` with three
distinct colors: the committed color is the second one. -/
theorem point_depth_test_scenario_witness :
    ((Framebuffer.new 2 2).buffer.length =
        (Framebuffer.new 2 2).width * (Framebuffer.new 2 2).height) ∧
    ((Framebuffer.new 2 2).zbuffer.length =
        (Framebuffer.new 2 2).width * (Framebuffer.new 2 2).height) ∧
    (0 < (Framebuffer.new 2 2).width) ∧ (1 < (Framebuffer.new 2 2).height) ∧
    (Color.new 10 20 30).InRange ∧ (Color.new 40 50 60).InRange ∧
    (Color.new 70 80 90).InRange ∧
    ((((((((Framebuffer.new 2 2).clear.set_current_color
        (Color.new 10 20 30).to_hex).point 0 1
        (Depth.fin 2)).set_current_color
        (Color.new 40 50 60).to_hex).point 0 1
        (Depth.fin 1)).set_current_color
        (Color.new 70 80 90).to_hex).point 0 1
        (Depth.fin 3)).buffer[1 * (Framebuffer.new 2 2).width + 0]? =
      some (Color.new 40 50 60)) :=
  ⟨by decide, by decide, by decide, by decide, by decide, by decide,
    by decide,
    (point_depth_test_scenario (Framebuffer.new 2 2) 0 1
      (Color.new 10 20 30) (Color.new 40 50 60) (Color.new 70 80 90)
      (by decide) (by decide) (by decide) (by decide) (by decide)
      (by decide) (by decide)).2.1⟩
